import Mathlib

/-!
Shallow embedding of the speechace-word Socket.io speech server
(socket-server script): the session registry, the per-session audio
accumulator with its batch-trigger policy, the tiered speech-to-text
orchestrator, and the word publisher.

Conventions of the embedding:
- audio byte buffers are `List Nat`;
- asynchronous effects (word-store posts, tier attempts, socket emits) are
  recorded as explicit event lists returned next to the result;
- a JavaScript function that may throw returns `Except String _`, where the
  `error` case is an uncaught exception carrying the message;
- the global JavaScript `Map` objects are association lists keyed by strings;
- `Math.floor(Math.random() * words.length)` is an injected index below the
  vocabulary length.
-/

namespace SpeechServer

/-- Model of JavaScript `String.prototype.trim`: drop whitespace from both
ends. Defined by structural recursion over the character list so that it
evaluates inside the kernel. -/
def strTrim (s : String) : String :=
  ⟨((s.data.dropWhile Char.isWhitespace).reverse.dropWhile Char.isWhitespace).reverse⟩

/-- Model of JavaScript `String.prototype.toLowerCase` at the ASCII level. -/
def strLower (s : String) : String :=
  ⟨s.data.map Char.toLower⟩

/-- Helper for `wordsOf`: walks the character list accumulating the current
(reversed) token; whitespace closes the token if it is nonempty. -/
def splitWsGo : List Char → List Char → List String
  | [], cur => if cur.isEmpty then [] else [⟨cur.reverse⟩]
  | c :: rest, cur =>
    if c.isWhitespace then
      if cur.isEmpty then splitWsGo rest [] else ⟨cur.reverse⟩ :: splitWsGo rest []
    else splitWsGo rest (c :: cur)

/-- Model of the JavaScript idiom used in both transcription paths:
`text.split(whitespace-run regex).filter((word) => word.length > 0)`, i.e.
the maximal nonempty runs of non-whitespace characters, in order. -/
def wordsOf (s : String) : List String :=
  splitWsGo s.data []

/-- Observable effects of the transcription pipeline. -/
inductive Event where
  /-- The orchestrator starts an attempt on the named tier. -/
  | tierAttempt (tier : String)
  /-- One POST to the speech-detection session store with the given payload. -/
  | publish (sessionId : String) (word : String)
deriving DecidableEq

/-- Embeds `sendWordToAPI` (source lines 407-418): posts the lower-cased word
to the session store; the surrounding try/catch swallows any axios failure,
so the function always returns and emits exactly one store write. -/
def sendWordToAPI (sessionId word : String) : List Event :=
  [Event.publish sessionId (strLower word)]

/-- Embeds `openaiSpeechToText` (source lines 327-402). The outcome of the
cloud Whisper call is injected as `cloudResult` (an exception message or the
raw transcription text). On nonempty trimmed text the words are split,
filtered, re-joined with single spaces, and sent in ONE `sendWordToAPI`
call; on empty text the function returns `null` with no store write; any
failure is re-thrown to trigger the fallback tier. -/
def openaiSpeechToText (openaiConfigured : Bool) (cloudResult : Except String String)
    (sessionId : String) : Except String (Option String) × List Event :=
  if openaiConfigured = false then
    (Except.error "OpenAI API key not configured", [])
  else
    match cloudResult with
    | Except.error e => (Except.error e, [])
    | Except.ok raw =>
      let transcribedText := strTrim raw
      if transcribedText.length > 0 then
        let joined := String.intercalate " " (wordsOf transcribedText)
        (Except.ok (some transcribedText), sendWordToAPI sessionId joined)
      else
        (Except.ok none, [])

/-- Embeds `ollamaSpeechToText` (source lines 251-321), the local tier that
the orchestrator currently has commented out. On nonempty trimmed text it
sends one `sendWordToAPI` call PER word; failures are re-thrown. -/
def ollamaSpeechToText (ollamaResult : Except String String) (sessionId : String) :
    Except String (Option String) × List Event :=
  match ollamaResult with
  | Except.error e => (Except.error e, [])
  | Except.ok raw =>
    let transcribedText := strTrim raw
    if transcribedText.length > 0 then
      (Except.ok (some transcribedText),
        ((wordsOf transcribedText).map (fun w => sendWordToAPI sessionId w)).flatten)
    else
      (Except.ok none, [])

/-- Fixed vocabulary of the simulation tier (source lines 424-433). -/
def fallbackWords : List String :=
  ["hello", "world", "test", "audio", "stream", "speech", "recognition", "system"]

/-- Embeds `fallbackSpeechDetection` (source lines 423-438): picks the word at
the random index, posts it via `sendWordToAPI` (which never throws), and
returns it. The function is total: it has no failure case. -/
def fallbackSpeechDetection (randomIndex : Fin fallbackWords.length)
    (sessionId : String) : String × List Event :=
  let randomWord := fallbackWords.get randomIndex
  (randomWord, sendWordToAPI sessionId randomWord)

/-- Environment of one orchestrator run: whether the OpenAI client was
constructed (an API key is present), the response of the cloud backend as a
function of the audio bytes, and the random index drawn by the simulation
tier. -/
structure Env where
  openaiConfigured : Bool
  cloudTranscribe : List Nat → Except String String
  randomIndex : Fin fallbackWords.length

/-- Embeds the orchestrator `speechToText` (source lines 221-245). Tier 1
(Ollama) is commented out in the source. Tier 2 (OpenAI) runs only when the
client is configured; its result — text or `null` — is returned as is, and
only a thrown error falls through to Tier 3, the simulation fallback. -/
def speechToText (cfg : Env) (audioBytes : List Nat) (sessionId : String) :
    Except String (Option String) × List Event :=
  if cfg.openaiConfigured then
    match openaiSpeechToText cfg.openaiConfigured (cfg.cloudTranscribe audioBytes) sessionId with
    | (Except.ok t, evs) => (Except.ok t, Event.tierAttempt "openai" :: evs)
    | (Except.error _, evs) =>
      let fb := fallbackSpeechDetection cfg.randomIndex sessionId
      (Except.ok (some fb.1),
        Event.tierAttempt "openai" :: evs ++ Event.tierAttempt "fallback" :: fb.2)
  else
    let fb := fallbackSpeechDetection cfg.randomIndex sessionId
    (Except.ok (some fb.1), Event.tierAttempt "fallback" :: fb.2)

/-- Embeds `processAudioAsync` (source lines 203-215): awaits `speechToText`
inside a try/catch that logs and swallows every error, so the function
itself always resolves. -/
def processAudioAsync (cfg : Env) (sessionId : String) (audioBytes : List Nat) :
    Except String Unit × List Event :=
  match speechToText cfg audioBytes sessionId with
  | (Except.ok _, evs) => (Except.ok (), evs)
  | (Except.error _, evs) => (Except.ok (), evs)

/-- Formalisation of the words of the claim for the word publisher (spec
section 4.5): one lower-cased durable write per whitespace-delimited token.
Declared only to compare against the embedded code paths. -/
def publishPerWordSpec (sessionId text : String) : List Event :=
  (wordsOf text).map (fun w => Event.publish sessionId (strLower w))

/-- Per-session accumulator entry of `sessionAudioAccumulator` (source lines
112-117): pending chunk buffers, their count, and the processing flag. -/
structure Accumulator where
  chunks : List (List Nat)
  chunkCount : Nat
  isProcessing : Bool
deriving DecidableEq

/-- Batch threshold in one-second chunks (source line 49). -/
def MIN_AUDIO_DURATION : Nat := 5

/-- Duration of one client chunk in seconds (source line 50). -/
def CHUNK_DURATION : Nat := 1

/-- Accumulator part of the audio-chunk handler (source lines 120-146): the
chunk is appended and the count incremented; then, if the new count reaches
`MIN_AUDIO_DURATION` and no batch is processing, the processing flag is set,
the pending chunks are flattened into one batch (`chunks.flat()`), and the
pending list and count are cleared. Returns the new accumulator and the
dispatched batch, if any. -/
def handleChunkAcc (acc : Accumulator) (d : List Nat) : Accumulator × Option (List Nat) :=
  if MIN_AUDIO_DURATION ≤ acc.chunkCount + 1 ∧ acc.isProcessing = false then
    (⟨[], 0, true⟩, some ((acc.chunks ++ [d]).flatten))
  else
    ({ acc with chunks := acc.chunks ++ [d], chunkCount := acc.chunkCount + 1 }, none)

/-- Events of one session history at the accumulator level: a chunk arrival,
or the settling of the in-flight batch promise (the `.finally` callback of
source line 143-145). -/
inductive AccOp where
  | chunk (d : List Nat)
  | complete
deriving DecidableEq

/-- One accumulator-level step; `complete` clears the processing flag. -/
def stepAcc (acc : Accumulator) : AccOp → Accumulator × Option (List Nat)
  | AccOp.chunk d => handleChunkAcc acc d
  | AccOp.complete => ({ acc with isProcessing := false }, none)

/-- Runs a history of accumulator operations, collecting the dispatched
batches in order. -/
def runAcc (acc : Accumulator) : List AccOp → Accumulator × List (List Nat)
  | [] => (acc, [])
  | op :: ops =>
    ((runAcc (stepAcc acc op).1 ops).1,
      (stepAcc acc op).2.toList ++ (runAcc (stepAcc acc op).1 ops).2)

/-- Chunk payloads appended by a history, in arrival order. -/
def chunkDatas : List AccOp → List (List Nat)
  | [] => []
  | AccOp.chunk d :: ops => d :: chunkDatas ops
  | AccOp.complete :: ops => chunkDatas ops

/-- Session state for the concurrency model: the accumulator plus the number
of batch-processing operations currently in flight (dispatched by source
line 143 and not yet settled). -/
structure SessState where
  acc : Accumulator
  inFlight : Nat
deriving DecidableEq

/-- Fresh session state: empty accumulator, nothing in flight. -/
def initSessState : SessState := ⟨⟨[], 0, false⟩, 0⟩

/-- Event-loop steps visible to one session. A chunk arrival either leaves
the in-flight count unchanged (no dispatch) or starts one batch; a batch
promise can settle only while one is in flight, and its `.finally` clears
the processing flag whether transcription succeeded or failed — the
`success` argument does not influence the resulting state. -/
inductive AccStep : SessState → SessState → Prop where
  | chunk (s : SessState) (d : List Nat) (acc2 : Accumulator)
      (h : handleChunkAcc s.acc d = (acc2, none)) :
      AccStep s ⟨acc2, s.inFlight⟩
  | chunkDispatch (s : SessState) (d : List Nat) (acc2 : Accumulator) (batch : List Nat)
      (h : handleChunkAcc s.acc d = (acc2, some batch)) :
      AccStep s ⟨acc2, s.inFlight + 1⟩
  | complete (s : SessState) (success : Bool) (h : 0 < s.inFlight) :
      AccStep s ⟨{ s.acc with isProcessing := false }, s.inFlight - 1⟩

/-- States reachable from the fresh session state. -/
inductive ReachableAcc : SessState → Prop where
  | init : ReachableAcc initSessState
  | step {s t : SessState} : ReachableAcc s → AccStep s t → ReachableAcc t

/-- Optional metadata sent with a chunk. -/
structure Metadata where
  mimeType : String
  size : Nat
  duration : Nat
deriving DecidableEq

/-- Entry of the `audioBuffers` map (source lines 97-103). -/
structure BufferedChunk where
  data : List Nat
  timestamp : Nat
  metadata : Option Metadata
deriving DecidableEq

/-- Entry of the `activeSessions` map (source lines 62-66). -/
structure SessionInfo where
  sessionId : String
  startTime : Nat
  chunksReceived : Nat
deriving DecidableEq

/-- Socket emissions and dispatches observable from the connection handlers. -/
inductive Emit where
  | error (message : String)
  | sessionStarted (sessionId : String) (timestamp : Nat)
  | chunkReceived (chunkNumber : Nat) (timestamp : Nat)
  | sessionStopped (sessionId : String) (chunksReceived : Nat) (duration : Nat)
  /-- A `processAudioAsync(sessionId, batch)` call is issued. -/
  | transcribeAttempt (sessionId : String) (batch : List Nat)
deriving DecidableEq

/-- Lookup in a JavaScript `Map`, modelled as an association list. -/
def mapGet {α : Type} (m : List (String × α)) (k : String) : Option α :=
  match m with
  | [] => none
  | (k2, v) :: rest => if k2 = k then some v else mapGet rest k

/-- `Map.set`: replace the binding if present, else append a fresh one. -/
def mapSet {α : Type} (m : List (String × α)) (k : String) (v : α) : List (String × α) :=
  match m with
  | [] => [(k, v)]
  | (k2, v2) :: rest => if k2 = k then (k, v) :: rest else (k2, v2) :: mapSet rest k v

/-- `Map.delete`: remove the binding for the key. -/
def mapDelete {α : Type} (m : List (String × α)) (k : String) : List (String × α) :=
  match m with
  | [] => []
  | (k2, v2) :: rest => if k2 = k then rest else (k2, v2) :: mapDelete rest k

/-- Whole-server state: the three global maps of source lines 40-46. -/
structure ServerState where
  activeSessions : List (String × SessionInfo)
  audioBuffers : List (String × List BufferedChunk)
  sessionAudioAccumulator : List (String × Accumulator)
deriving DecidableEq

/-- Accumulator default used on lazy initialisation (source lines 112-118). -/
def emptyAccumulator : Accumulator := ⟨[], 0, false⟩

/-- Accumulator currently stored for a session, or the lazily initialised
empty one. -/
def accOf (st : ServerState) (sessionId : String) : Accumulator :=
  (mapGet st.sessionAudioAccumulator sessionId).getD emptyAccumulator

/-- Embeds the `start-session` handler (source lines 58-78). -/
def handleStartSession (st : ServerState) (socketId sessionId : String) (now : Nat) :
    ServerState × List Emit :=
  let st1 : ServerState :=
    { st with activeSessions := mapSet st.activeSessions socketId ⟨sessionId, now, 0⟩ }
  let st2 : ServerState :=
    if (mapGet st1.audioBuffers sessionId).isSome then st1
    else { st1 with audioBuffers := mapSet st1.audioBuffers sessionId [] }
  (st2, [Emit.sessionStarted sessionId now])

/-- Embeds the `audio-chunk` handler (source lines 81-147). An unbound or
mismatched session produces only an `error` emit and leaves every map
untouched. Otherwise the chunk counter is incremented, the chunk is pushed
onto the session buffer, the acknowledgment is emitted, and the accumulator
logic of `handleChunkAcc` runs, possibly issuing one asynchronous
`processAudioAsync` dispatch. The source mutates the maps in the order
counter, buffer, acknowledgment, accumulator; the net state and the emitted
sequence are the same here, with the single clock sample `now` standing for
the `Date.now()` calls of the handler. -/
def handleAudioChunk (st : ServerState) (socketId sessionId : String)
    (audioBytes : List Nat) (md : Option Metadata) (now : Nat) : ServerState × List Emit :=
  match mapGet st.activeSessions socketId with
  | none => (st, [Emit.error "Invalid session"])
  | some session =>
    if session.sessionId = sessionId then
      match handleChunkAcc (accOf st sessionId) audioBytes with
      | (acc2, out) =>
        let st1 : ServerState :=
          { activeSessions := mapSet st.activeSessions socketId
              { session with chunksReceived := session.chunksReceived + 1 },
            audioBuffers := mapSet st.audioBuffers sessionId
              ((mapGet st.audioBuffers sessionId).getD [] ++ [⟨audioBytes, now, md⟩]),
            sessionAudioAccumulator := mapSet st.sessionAudioAccumulator sessionId acc2 }
        match out with
        | some batch =>
          (st1, [Emit.chunkReceived (session.chunksReceived + 1) now,
                 Emit.transcribeAttempt sessionId batch])
        | none =>
          (st1, [Emit.chunkReceived (session.chunksReceived + 1) now])
    else (st, [Emit.error "Invalid session"])

/-- Embeds the `stop-session` handler (source lines 150-181). With no bound
session the handler does nothing at all. Otherwise: if the accumulator
exists, has pending chunks, and no batch is processing, the remaining chunks
are flattened and awaited through `processAudioAsync`; then the accumulator
and buffer entries are deleted, `session-stopped` is emitted with the chunk
counter and the elapsed duration, and the registry entry is deleted. -/
def handleStopSession (st : ServerState) (socketId sessionId : String) (now : Nat) :
    ServerState × List Emit :=
  match mapGet st.activeSessions socketId with
  | none => (st, [])
  | some session =>
    let flushEmits : List Emit :=
      match mapGet st.sessionAudioAccumulator sessionId with
      | some acc =>
        if 0 < acc.chunks.length ∧ acc.isProcessing = false then
          [Emit.transcribeAttempt sessionId acc.chunks.flatten]
        else []
      | none => []
    ({ activeSessions := mapDelete st.activeSessions socketId,
       audioBuffers := mapDelete st.audioBuffers sessionId,
       sessionAudioAccumulator := mapDelete st.sessionAudioAccumulator sessionId },
     flushEmits ++
       [Emit.sessionStopped sessionId session.chunksReceived (now - session.startTime)])

/-- Embeds the `disconnect` handler (source lines 184-192): it deletes only
the registry entry for the socket; the accumulator and buffer maps are not
touched and nothing is transcribed or emitted. -/
def handleDisconnect (st : ServerState) (socketId : String) : ServerState × List Emit :=
  match mapGet st.activeSessions socketId with
  | none => (st, [])
  | some _ => ({ st with activeSessions := mapDelete st.activeSessions socketId }, [])

/-- True when an emission list contains a transcription dispatch. -/
def isDispatchEmit : Emit → Bool
  | Emit.transcribeAttempt _ _ => true
  | _ => false

/-- Does the handler output dispatch a batch? -/
def dispatches (emits : List Emit) : Bool :=
  emits.any isDispatchEmit

/-- A non-dispatching chunk arrival only appends the chunk and bumps the
count; the processing flag is untouched. -/
theorem handleChunkAcc_none_eq (acc : Accumulator) (d : List Nat) (acc2 : Accumulator)
    (h : handleChunkAcc acc d = (acc2, none)) :
    acc2 = { acc with chunks := acc.chunks ++ [d], chunkCount := acc.chunkCount + 1 } := by
  unfold handleChunkAcc at h
  split at h
  · simp only [Prod.mk.injEq] at h
    exact absurd h.2 (Option.some_ne_none _)
  · simp only [Prod.mk.injEq] at h
    exact h.1.symm

/-- A dispatching chunk arrival requires the threshold to be met with the
flag clear, empties the accumulator, sets the flag, and takes exactly the
pending chunks plus the new one, flattened in order. -/
theorem handleChunkAcc_some_eq (acc : Accumulator) (d : List Nat) (acc2 : Accumulator)
    (b : List Nat) (h : handleChunkAcc acc d = (acc2, some b)) :
    acc2 = ⟨[], 0, true⟩ ∧ b = (acc.chunks ++ [d]).flatten
      ∧ MIN_AUDIO_DURATION ≤ acc.chunkCount + 1 ∧ acc.isProcessing = false := by
  unfold handleChunkAcc at h
  split at h
  next hc =>
    simp only [Prod.mk.injEq, Option.some.injEq] at h
    exact ⟨h.1.symm, h.2.symm, hc.1, hc.2⟩
  next hc =>
    simp only [Prod.mk.injEq] at h
    exact absurd h.2.symm (Option.some_ne_none _)

/-- Dispatch happens exactly when the post-append count meets the threshold
and no batch is processing. -/
theorem handleChunkAcc_dispatch_iff (acc : Accumulator) (d : List Nat) :
    (handleChunkAcc acc d).2 ≠ none ↔
      (MIN_AUDIO_DURATION ≤ acc.chunkCount + 1 ∧ acc.isProcessing = false) := by
  unfold handleChunkAcc
  split
  next hc => simpa using hc
  next hc => simpa using hc

/-- The audio-processing wrapper always resolves: every transcription error
is caught inside it. -/
theorem processAudioAsync_fst (cfg : Env) (sessionId : String) (audioBytes : List Nat) :
    (processAudioAsync cfg sessionId audioBytes).1 = Except.ok () := by
  unfold processAudioAsync
  rcases h : speechToText cfg audioBytes sessionId with ⟨r, evs⟩
  rcases r with e | v <;> rfl

/-- Reading back a freshly set key returns the new value. -/
theorem mapGet_mapSet_self {α : Type} (m : List (String × α)) (k : String) (v : α) :
    mapGet (mapSet m k v) k = some v := by
  induction m with
  | nil => simp [mapSet, mapGet]
  | cons p rest ih =>
    rcases p with ⟨k2, v2⟩
    by_cases hk : k2 = k
    · simp [mapSet, mapGet, hk]
    · simp [mapSet, mapGet, hk, ih]

/-- C1: for every environment, audio batch and session id, the orchestrator
`speechToText` resolves with a value (text or null) and never raises to its
caller; a Tier 2 exception is caught and the final simulation tier — itself
total — is tried, so even when every real backend fails the orchestrator
returns the fallback word together with its single store write. -/
theorem speechToText_total_and_fallback :
    (∀ (cfg : Env) (audioBytes : List Nat) (sessionId : String),
      ∃ r : Option String, (speechToText cfg audioBytes sessionId).1 = Except.ok r)
    ∧ (∀ (cfg : Env) (audioBytes : List Nat) (sessionId : String) (e : String),
        cfg.openaiConfigured = true →
        cfg.cloudTranscribe audioBytes = Except.error e →
        speechToText cfg audioBytes sessionId =
          (Except.ok (some (fallbackSpeechDetection cfg.randomIndex sessionId).1),
            [Event.tierAttempt "openai", Event.tierAttempt "fallback",
             Event.publish sessionId
               (strLower (fallbackSpeechDetection cfg.randomIndex sessionId).1)])) := by
  constructor
  · intro cfg audioBytes sessionId
    unfold speechToText
    split
    · split
      · exact ⟨_, rfl⟩
      · exact ⟨_, rfl⟩
    · exact ⟨_, rfl⟩
  · intro cfg audioBytes sessionId e h1 h2
    unfold speechToText
    rw [h1, h2]
    unfold openaiSpeechToText
    simp [fallbackSpeechDetection, sendWordToAPI]

/-- Closed instance of `speechToText_total_and_fallback`: with the cloud tier
configured but failing, the orchestrator returns the first fallback word. -/
theorem speechToText_total_and_fallback_witness :
    speechToText ⟨true, fun _ => Except.error "down", ⟨0, by decide⟩⟩ [1] "s1" =
      (Except.ok (some "hello"),
        [Event.tierAttempt "openai", Event.tierAttempt "fallback",
         Event.publish "s1" "hello"]) :=
  (speechToText_total_and_fallback.2 ⟨true, fun _ => Except.error "down", ⟨0, by decide⟩⟩
    [1] "s1" "down" rfl rfl).trans rfl

/-- C5: when the configured cloud tier answers with empty text ("no speech
detected"), the orchestrator returns null without invoking the fallback tier
and with zero word-publish calls; with any non-throwing cloud answer the
fallback tier is never attempted, so only an explicit failure falls through. -/
theorem no_speech_is_terminal (cfg : Env) (audioBytes : List Nat) (sessionId raw : String)
    (h1 : cfg.openaiConfigured = true)
    (h2 : cfg.cloudTranscribe audioBytes = Except.ok raw) :
    ((strTrim raw).length = 0 →
      speechToText cfg audioBytes sessionId = (Except.ok none, [Event.tierAttempt "openai"]))
    ∧ Event.tierAttempt "fallback" ∉ (speechToText cfg audioBytes sessionId).2 := by
  unfold speechToText
  rw [h1, h2]
  unfold openaiSpeechToText
  by_cases hlen : (strTrim raw).length > 0
  · simp only [Bool.true_eq_false, if_false, hlen, if_true, if_pos hlen]
    constructor
    · intro h0
      omega
    · simp [sendWordToAPI]
  · simp only [Bool.true_eq_false, if_false, if_neg hlen]
    constructor
    · intro _
      simp
    · simp

/-- Closed instance of `no_speech_is_terminal`: a whitespace-only cloud
answer ends the batch at Tier 2 with no publish and no fallback attempt. -/
theorem no_speech_is_terminal_witness :
    speechToText ⟨true, fun _ => Except.ok " ", ⟨0, by decide⟩⟩ [7] "s1" =
      (Except.ok none, [Event.tierAttempt "openai"]) :=
  (no_speech_is_terminal ⟨true, fun _ => Except.ok " ", ⟨0, by decide⟩⟩ [7] "s1" " "
    rfl rfl).1 (by decide)

/-- C6 counterexample: on recognized text "Hello World" the active cloud path
performs ONE store write with the joined lower-cased phrase, not one write
per word as the claim states; the per-word behaviour the claim describes
lives only in the disabled local path. -/
theorem per_word_publish_counterexample :
    (openaiSpeechToText true (Except.ok "Hello World") "s1").2
        = [Event.publish "s1" "hello world"]
    ∧ publishPerWordSpec "s1" "Hello World"
        = [Event.publish "s1" "hello", Event.publish "s1" "world"]
    ∧ (openaiSpeechToText true (Except.ok "Hello World") "s1").2
        ≠ publishPerWordSpec "s1" "Hello World" := by
  decide

/-- C6 amended: on non-null recognized text the active cloud path tokenizes
into whitespace-delimited words, discards empty tokens, re-joins them with
single spaces, and performs exactly one durable lower-cased write of the
joined phrase; the (currently disabled) local path is the one that performs
one lower-cased write per word. -/
theorem word_publish_normalization (sessionId raw : String)
    (h : 0 < (strTrim raw).length) :
    (openaiSpeechToText true (Except.ok raw) sessionId).2
        = [Event.publish sessionId (strLower (String.intercalate " " (wordsOf (strTrim raw))))]
    ∧ (ollamaSpeechToText (Except.ok raw) sessionId).2
        = (wordsOf (strTrim raw)).map (fun w => Event.publish sessionId (strLower w)) := by
  constructor
  · unfold openaiSpeechToText
    simp [if_pos h, sendWordToAPI]
  · unfold ollamaSpeechToText
    simp only [if_pos h, sendWordToAPI]
    induction wordsOf (strTrim raw) with
    | nil => rfl
    | cons w ws ih => simp [ih]

/-- Closed instance of `word_publish_normalization` at text "Hello World". -/
theorem word_publish_normalization_witness :
    0 < (strTrim "Hello World").length
    ∧ (openaiSpeechToText true (Except.ok "Hello World") "s1").2
        = [Event.publish "s1" (strLower (String.intercalate " " (wordsOf (strTrim "Hello World"))))] :=
  ⟨by decide, (word_publish_normalization "s1" "Hello World" (by decide)).1⟩

/-- Invariant linking the in-flight count to the processing flag: in every
reachable session state the number of outstanding batch operations is one
exactly while the flag is set, zero otherwise. -/
theorem inFlight_eq_flag (s : SessState) (h : ReachableAcc s) :
    s.inFlight = (if s.acc.isProcessing then 1 else 0) := by
  induction h with
  | init => rfl
  | @step s t hr hstep ih =>
    cases hstep with
    | chunk d acc2 heq =>
      have he := handleChunkAcc_none_eq _ _ _ heq
      subst he
      simpa using ih
    | chunkDispatch d acc2 batch heq =>
      obtain ⟨h1, _, _, h4⟩ := handleChunkAcc_some_eq _ _ _ _ heq
      subst h1
      simp [ih, h4]
    | complete _success hpos =>
      by_cases hp : s.acc.isProcessing = true
      · simp [ih, hp]
      · rw [ih] at hpos
        simp [hp] at hpos

/-- C2: in every reachable session state at most one batch operation is in
flight; while the processing flag is set no chunk arrival can dispatch a
second batch; a dispatch sets the flag; the settle step exists for both a
successful and a failed batch and clears the flag; and once the flag is
clear a threshold-meeting chunk arrival dispatches again. -/
theorem single_batch_in_flight (s : SessState) (h : ReachableAcc s) :
    s.inFlight ≤ 1
    ∧ (s.acc.isProcessing = true → ∀ d : List Nat, (handleChunkAcc s.acc d).2 = none)
    ∧ (∀ (d : List Nat) (acc2 : Accumulator) (b : List Nat),
        handleChunkAcc s.acc d = (acc2, some b) → acc2.isProcessing = true)
    ∧ (0 < s.inFlight → ∀ success : Bool,
        AccStep s ⟨{ s.acc with isProcessing := false }, s.inFlight - 1⟩)
    ∧ (∀ d : List Nat, MIN_AUDIO_DURATION ≤ s.acc.chunkCount + 1 →
        (handleChunkAcc { s.acc with isProcessing := false } d).2 ≠ none) := by
  refine ⟨?_, ?_, ?_, ?_, ?_⟩
  · rw [inFlight_eq_flag s h]
    split <;> omega
  · intro hp d
    simp [handleChunkAcc, hp]
  · intro d acc2 b heq
    rw [(handleChunkAcc_some_eq _ _ _ _ heq).1]
  · intro hpos success
    exact AccStep.complete s success hpos
  · intro d hthr
    rw [handleChunkAcc_dispatch_iff]
    exact ⟨hthr, rfl⟩

/-- Closed instance of `single_batch_in_flight` at the initial state. -/
theorem single_batch_in_flight_witness :
    ReachableAcc initSessState ∧ initSessState.inFlight ≤ 1 :=
  ⟨ReachableAcc.init, (single_batch_in_flight initSessState ReachableAcc.init).1⟩

/-- One accumulator step conserves the audio bytes: what was pending plus
what the step appends equals what the step dispatches plus what stays
pending. -/
theorem stepAcc_conservation (acc : Accumulator) (op : AccOp) :
    acc.chunks.flatten ++ (chunkDatas [op]).flatten
      = ((stepAcc acc op).2.toList).flatten ++ ((stepAcc acc op).1).chunks.flatten := by
  cases op with
  | chunk d =>
    simp only [stepAcc, chunkDatas]
    unfold handleChunkAcc
    split
    · simp
    · simp
  | complete => simp [stepAcc, chunkDatas]

/-- Conservation over a whole history: the initially pending bytes followed
by every appended chunk, in arrival order, equal the dispatched batches in
dispatch order followed by the finally pending bytes — no chunk is lost or
duplicated. -/
theorem runAcc_conservation (ops : List AccOp) (acc : Accumulator) :
    acc.chunks.flatten ++ (chunkDatas ops).flatten
      = ((runAcc acc ops).2).flatten ++ ((runAcc acc ops).1).chunks.flatten := by
  induction ops generalizing acc with
  | nil => simp [runAcc, chunkDatas]
  | cons op ops ih =>
    have hstep := stepAcc_conservation acc op
    have hih := ih (stepAcc acc op).1
    have hcd : chunkDatas (op :: ops) = chunkDatas [op] ++ chunkDatas ops := by
      cases op <;> simp [chunkDatas]
    simp only [runAcc, hcd, List.flatten_append]
    rw [← List.append_assoc, hstep, List.append_assoc, hih, List.append_assoc]

/-- C3: a dispatch takes exactly the chunks appended since the previous
dispatch, concatenated in arrival order; immediately afterwards the pending
list is empty and the pending count is zero; and over every interleaving of
chunk arrivals and batch settles no byte is lost or duplicated. -/
theorem takeBatch_exact (acc : Accumulator) (d : List Nat) (acc2 : Accumulator)
    (b : List Nat) (h : handleChunkAcc acc d = (acc2, some b)) :
    (b = (acc.chunks ++ [d]).flatten ∧ acc2.chunks = [] ∧ acc2.chunkCount = 0)
    ∧ (∀ (a : Accumulator) (ops : List AccOp),
        a.chunks.flatten ++ (chunkDatas ops).flatten
          = ((runAcc a ops).2).flatten ++ ((runAcc a ops).1).chunks.flatten) := by
  obtain ⟨h1, h2, _, _⟩ := handleChunkAcc_some_eq _ _ _ _ h
  subst h1
  exact ⟨⟨h2, rfl, rfl⟩, fun a ops => runAcc_conservation ops a⟩

/-- Closed instance of `takeBatch_exact`: the fifth chunk dispatches all five
pending one-byte chunks and empties the accumulator. -/
theorem takeBatch_exact_witness :
    [1, 2, 3, 4, 5] = (([[1], [2], [3], [4]] : List (List Nat)) ++ [[5]]).flatten
    ∧ (⟨[], 0, true⟩ : Accumulator).chunks = []
    ∧ (⟨[], 0, true⟩ : Accumulator).chunkCount = 0 :=
  (takeBatch_exact ⟨[[1], [2], [3], [4]], 4, false⟩ [5] ⟨[], 0, true⟩ [1, 2, 3, 4, 5]
    (by decide)).1

/-- Valid-session shape of the audio-chunk handler: counter bumped, chunk
buffered, acknowledgment emitted, accumulator stepped, dispatch appended
when the accumulator step produced a batch. -/
theorem handleAudioChunk_valid (st : ServerState) (socketId sessionId : String)
    (audioBytes : List Nat) (md : Option Metadata) (now : Nat) (session : SessionInfo)
    (hs : mapGet st.activeSessions socketId = some session)
    (hm : session.sessionId = sessionId) :
    handleAudioChunk st socketId sessionId audioBytes md now =
      (⟨mapSet st.activeSessions socketId
          { session with chunksReceived := session.chunksReceived + 1 },
        mapSet st.audioBuffers sessionId
          ((mapGet st.audioBuffers sessionId).getD [] ++ [⟨audioBytes, now, md⟩]),
        mapSet st.sessionAudioAccumulator sessionId
          (handleChunkAcc (accOf st sessionId) audioBytes).1⟩,
       Emit.chunkReceived (session.chunksReceived + 1) now ::
         (match (handleChunkAcc (accOf st sessionId) audioBytes).2 with
          | some batch => [Emit.transcribeAttempt sessionId batch]
          | none => [])) := by
  rcases hca : handleChunkAcc (accOf st sessionId) audioBytes with ⟨acc2, out⟩
  rcases out with _ | batch <;>
    simp [handleAudioChunk, hs, hm, hca]

/-- C4: on a valid audio-chunk event a batch dispatch fires exactly when the
post-append pending count reaches the threshold and no batch is processing
for the session; when either condition fails the chunk is still appended
(count bumped, flag untouched) and no dispatch occurs. -/
theorem audio_chunk_dispatch_iff (st : ServerState) (socketId sessionId : String)
    (audioBytes : List Nat) (md : Option Metadata) (now : Nat) (session : SessionInfo)
    (hs : mapGet st.activeSessions socketId = some session)
    (hm : session.sessionId = sessionId) :
    (dispatches (handleAudioChunk st socketId sessionId audioBytes md now).2 = true
      ↔ (MIN_AUDIO_DURATION ≤ (accOf st sessionId).chunkCount + 1
          ∧ (accOf st sessionId).isProcessing = false))
    ∧ (dispatches (handleAudioChunk st socketId sessionId audioBytes md now).2 = false →
        mapGet (handleAudioChunk st socketId sessionId audioBytes md now).1.sessionAudioAccumulator
            sessionId
          = some { chunks := (accOf st sessionId).chunks ++ [audioBytes],
                   chunkCount := (accOf st sessionId).chunkCount + 1,
                   isProcessing := (accOf st sessionId).isProcessing }) := by
  rw [handleAudioChunk_valid st socketId sessionId audioBytes md now session hs hm]
  have hiff := handleChunkAcc_dispatch_iff (accOf st sessionId) audioBytes
  rcases hca : handleChunkAcc (accOf st sessionId) audioBytes with ⟨acc2, out⟩
  rw [hca] at hiff
  rcases out with _ | batch
  · have hne := handleChunkAcc_none_eq _ _ _ hca
    have hnodisp : ¬(MIN_AUDIO_DURATION ≤ (accOf st sessionId).chunkCount + 1
        ∧ (accOf st sessionId).isProcessing = false) := fun hc => (hiff.mpr hc) rfl
    refine ⟨⟨fun hd => ?_, fun hc => absurd hc hnodisp⟩, fun _ => ?_⟩
    · simp [dispatches, isDispatchEmit] at hd
    · simp [mapGet_mapSet_self, hne]
  · have hcond : MIN_AUDIO_DURATION ≤ (accOf st sessionId).chunkCount + 1
        ∧ (accOf st sessionId).isProcessing = false := by simpa using hiff
    refine ⟨⟨fun _ => hcond, fun _ => ?_⟩, fun hfalse => ?_⟩
    · simp [dispatches, isDispatchEmit]
    · simp [dispatches, isDispatchEmit] at hfalse

/-- Closed instance of `audio_chunk_dispatch_iff`: with four pending chunks
and a clear flag the fifth chunk dispatches. -/
theorem audio_chunk_dispatch_iff_witness :
    dispatches (handleAudioChunk ⟨[("sock1", ⟨"s1", 0, 4⟩)], [("s1", [])],
        [("s1", ⟨[[1], [2], [3], [4]], 4, false⟩)]⟩ "sock1" "s1" [5] none 7).2 = true :=
  ((audio_chunk_dispatch_iff ⟨[("sock1", ⟨"s1", 0, 4⟩)], [("s1", [])],
      [("s1", ⟨[[1], [2], [3], [4]], 4, false⟩)]⟩ "sock1" "s1" [5] none 7 ⟨"s1", 0, 4⟩
      rfl rfl).1).mpr (by decide)

/-- C7: a stop-session event on a connection with a bound session, pending
chunks, and no batch in flight makes exactly one transcription attempt on
the flattened remaining chunks — with no constraint relating their count to
the threshold — before the accumulator and buffer entries are deleted; the
attempt resolves for every environment (errors are swallowed); and the
reply carries the session id, the chunk counter and the elapsed duration. -/
theorem stop_session_flushes (st : ServerState) (socketId sessionId : String) (now : Nat)
    (session : SessionInfo) (acc : Accumulator)
    (hs : mapGet st.activeSessions socketId = some session)
    (ha : mapGet st.sessionAudioAccumulator sessionId = some acc)
    (hne : 0 < acc.chunks.length)
    (hp : acc.isProcessing = false) :
    handleStopSession st socketId sessionId now =
      (⟨mapDelete st.activeSessions socketId,
        mapDelete st.audioBuffers sessionId,
        mapDelete st.sessionAudioAccumulator sessionId⟩,
       [Emit.transcribeAttempt sessionId acc.chunks.flatten,
        Emit.sessionStopped sessionId session.chunksReceived (now - session.startTime)])
    ∧ ∀ cfg : Env, (processAudioAsync cfg sessionId acc.chunks.flatten).1 = Except.ok () := by
  constructor
  · simp [handleStopSession, hs, ha, hne, hp]
  · intro cfg
    exact processAudioAsync_fst cfg sessionId acc.chunks.flatten

/-- Closed instance of `stop_session_flushes`: three pending chunks — below
the threshold of five — are flushed in one attempt at stop. -/
theorem stop_session_flushes_witness :
    handleStopSession ⟨[("sock1", ⟨"s1", 100, 3⟩)], [("s1", [])],
        [("s1", ⟨[[1], [2], [3]], 3, false⟩)]⟩ "sock1" "s1" 250 =
      (⟨[], [], []⟩,
       [Emit.transcribeAttempt "s1" [1, 2, 3], Emit.sessionStopped "s1" 3 150])
    ∧ (processAudioAsync ⟨false, fun _ => Except.error "e", ⟨0, by decide⟩⟩ "s1"
        ([[1], [2], [3]] : List (List Nat)).flatten).1 = Except.ok () := by
  have h := stop_session_flushes ⟨[("sock1", ⟨"s1", 100, 3⟩)], [("s1", [])],
      [("s1", ⟨[[1], [2], [3]], 3, false⟩)]⟩ "sock1" "s1" 250 ⟨"s1", 100, 3⟩
      ⟨[[1], [2], [3]], 3, false⟩ rfl rfl (by decide) rfl
  exact ⟨h.1.trans (by decide), h.2 ⟨false, fun _ => Except.error "e", ⟨0, by decide⟩⟩⟩

/-- C8: an audio-chunk event on a connection with no bound session, or with a
session id differing from the bound one, produces only the error emission
and leaves the whole server state unchanged — no counter bump, no buffer or
accumulator append, no acknowledgment, no dispatch. -/
theorem invalid_session_no_state_change (st : ServerState) (socketId sessionId : String)
    (audioBytes : List Nat) (md : Option Metadata) (now : Nat)
    (h : ∀ session : SessionInfo,
        mapGet st.activeSessions socketId = some session → session.sessionId ≠ sessionId) :
    handleAudioChunk st socketId sessionId audioBytes md now
      = (st, [Emit.error "Invalid session"]) := by
  rcases hmg : mapGet st.activeSessions socketId with _ | session
  · simp [handleAudioChunk, hmg]
  · simp [handleAudioChunk, hmg, h session hmg]

/-- Closed instance of `invalid_session_no_state_change`: a chunk for
session s1 on a connection bound to s2 is rejected without any change. -/
theorem invalid_session_no_state_change_witness :
    handleAudioChunk ⟨[("sock1", ⟨"s2", 0, 0⟩)], [], []⟩ "sock1" "s1" [1] none 5
      = (⟨[("sock1", ⟨"s2", 0, 0⟩)], [], []⟩, [Emit.error "Invalid session"]) :=
  invalid_session_no_state_change ⟨[("sock1", ⟨"s2", 0, 0⟩)], [], []⟩ "sock1" "s1" [1] none 5
    (fun session hsession => by
      injection hsession with hh
      subst hh
      decide)

/-- C9 counterexample: a disconnect while a session with two pending chunks
is bound transcribes nothing (no emissions at all) — but the accumulator
entry is NOT disposed: it is still present, unchanged, after the cleanup,
refuting the claim that disconnect disposes the accumulator state. -/
theorem disconnect_keeps_accumulator_counterexample :
    (handleDisconnect ⟨[("sock1", ⟨"s1", 0, 2⟩)], [("s1", [])],
        [("s1", ⟨[[1], [2]], 2, false⟩)]⟩ "sock1").2 = []
    ∧ mapGet (handleDisconnect ⟨[("sock1", ⟨"s1", 0, 2⟩)], [("s1", [])],
        [("s1", ⟨[[1], [2]], 2, false⟩)]⟩ "sock1").1.sessionAudioAccumulator "s1"
      = some ⟨[[1], [2]], 2, false⟩ := by
  decide

/-- C9 amended: a disconnect of a connection in the Active state performs no
flush and no transcription attempt — pending sub-threshold chunks are never
transcribed — and the cleanup removes only the registry entry for the
connection; the accumulator state and the audio buffers of the bound
session are left in place, not disposed. -/
theorem disconnect_no_flush_keeps_state (st : ServerState) (socketId : String)
    (session : SessionInfo) (hs : mapGet st.activeSessions socketId = some session) :
    handleDisconnect st socketId
      = ({ st with activeSessions := mapDelete st.activeSessions socketId }, [])
    ∧ (handleDisconnect st socketId).1.sessionAudioAccumulator = st.sessionAudioAccumulator
    ∧ (handleDisconnect st socketId).1.audioBuffers = st.audioBuffers := by
  have h1 : handleDisconnect st socketId
      = ({ st with activeSessions := mapDelete st.activeSessions socketId }, []) := by
    simp [handleDisconnect, hs]
  exact ⟨h1, by rw [h1], by rw [h1]⟩

/-- Closed instance of `disconnect_no_flush_keeps_state`. -/
theorem disconnect_no_flush_keeps_state_witness :
    handleDisconnect ⟨[("sock1", ⟨"s1", 0, 2⟩)], [("s1", [])],
        [("s1", ⟨[[1], [2]], 2, false⟩)]⟩ "sock1"
      = (⟨[], [("s1", [])], [("s1", ⟨[[1], [2]], 2, false⟩)]⟩, []) :=
  (disconnect_no_flush_keeps_state ⟨[("sock1", ⟨"s1", 0, 2⟩)], [("s1", [])],
    [("s1", ⟨[[1], [2]], 2, false⟩)]⟩ "sock1" ⟨"s1", 0, 2⟩ rfl).1.trans (by decide)

/-- C10: a stop-session event on a connection with no bound session changes
no state and emits nothing at all — no acknowledgment, no error, and no map
entry touched. -/
theorem stop_session_unbound_noop (st : ServerState) (socketId sessionId : String) (now : Nat)
    (h : mapGet st.activeSessions socketId = none) :
    handleStopSession st socketId sessionId now = (st, []) := by
  simp [handleStopSession, h]

/-- Closed instance of `stop_session_unbound_noop`: stale buffer and
accumulator entries for the named session are left exactly as they were. -/
theorem stop_session_unbound_noop_witness :
    handleStopSession ⟨[], [("s1", [])], [("s1", ⟨[[1]], 1, false⟩)]⟩ "sock1" "s1" 9
      = (⟨[], [("s1", [])], [("s1", ⟨[[1]], 1, false⟩)]⟩, []) :=
  stop_session_unbound_noop ⟨[], [("s1", [])], [("s1", ⟨[[1]], 1, false⟩)]⟩ "sock1" "s1" 9 rfl

end SpeechServer
